import Mathlib

/-!
# Purser: pod queries and verbose pod cost listing

A shallow embedding of

* `pkg/controller/dgraph/models/query/pod.go` (namespace `Purser.Query`), and
* `src/kuber/pod.go`, function `printPodsVerbose` (namespace `Purser.Kuber`).

Conventions of the embedding.

* A Go slice is `Slice α = Option (List α)`; `none` is the nil slice.
* A Go `error` value is `Option GoError`; `none` is the nil error.
* `float64` is a type parameter `F`; the code under study only moves such
  values around, adds them and formats them, so the arithmetic is taken as
  operations on `F` and never as arithmetic on the reals.
* Everything the functions do to the outside world (store calls, log lines,
  printed text) is recorded, in program order, in a list of events returned
  next to the result.
-/

set_option maxRecDepth 8192

namespace Purser

/-- Go slice value: `none` is the nil slice, `some l` a non-nil slice with elements `l`. -/
abbrev Slice (α : Type) := Option (List α)

/-- Elements of a slice in order; the nil slice has none. -/
def Slice.toList {α : Type} : Slice α → List α
  | none => []
  | some l => l

/-- Go `len(s)`. -/
def Slice.len {α : Type} (s : Slice α) : Nat := s.toList.length

/-- Go `append(s, x)`: the result is never nil. -/
def Slice.push {α : Type} (s : Slice α) (x : α) : Slice α := some (s.toList ++ [x])

/-- Go `error` payload (the text `%v` prints). -/
abbrev GoError := String

/-- Go `map[string]bool` as a lookup function; `none` means the key is not present. -/
abbrev StringBoolMap := String → Option Bool

/-- Go `make(map[string]bool)`. -/
def StringBoolMap.empty : StringBoolMap := fun _ => none

/-- Go `m[k] = v`. -/
def StringBoolMap.set (m : StringBoolMap) (k : String) (v : Bool) : StringBoolMap :=
  fun k' => if k' = k then some v else m k'

/-- Go run-time panics the embedded code could raise. -/
inductive GoPanic where
  | indexOutOfRange
  | nilDereference
  deriving DecidableEq, Repr

namespace Models

/-- Modelled from the spec: the declaration of `models.Pod` is not among the sources; these are
the fields the spec's data model gives a pod and that `query/pod.go` reads (`uid`, `xid`, `name`,
`cpuPrice`, `memoryPrice`). -/
structure Pod (F : Type) where
  UID : String
  Xid : String
  Name : String
  CPUPrice : F
  MemoryPrice : F

end Models

namespace Query

/-- Loop body of `removeDuplicates`: the state is `(duplicateChecker, podsUIDs)`. -/
def removeDuplicates.step {F : Type} (st : StringBoolMap × Slice String) (pod : Models.Pod F) :
    StringBoolMap × Slice String :=
  match st.1 pod.UID with
  | none => (st.1.set pod.UID true, st.2.push pod.UID)
  | some _ => st

/-- Go `removeDuplicates`: `range` over the pods with an initially empty map and a nil slice. -/
def removeDuplicates {F : Type} (pods : Slice (Models.Pod F)) : Slice String :=
  (pods.toList.foldl removeDuplicates.step (StringBoolMap.empty, none)).2


/-- What a call leaves observable outside the function, in program order. -/
inductive Event where
  /-- Call `dgraph.ExecuteQuery(query, &root)`; `rootKey` is the `json` tag of the field of
  `root` the reply is decoded into. -/
  | executeQuery (query : String) (rootKey : String)
  /-- Call `dgraph.ExecuteQueryRaw(query)`. -/
  | executeQueryRaw (query : String)
  /-- Call `logrus.Errorf(format, args...)`, the arguments as `%v` prints them. -/
  | errorf (format : String) (args : List String)
  deriving DecidableEq, Repr

/-- True of the two store calls, false of a log line. -/
def Event.isStoreCall : Event → Bool
  | .executeQuery _ _ => true
  | .executeQueryRaw _ => true
  | .errorf _ _ => false

/-- Outcome of `dgraph.ExecuteQuery(query, &newRoot)`: the returned error and the contents of
`newRoot.Pods` after the call. -/
structure QueryReply (F : Type) where
  err : Option GoError
  pods : Slice (Models.Pod F)

/-- Outcome of `dgraph.ExecuteQueryRaw(query)`. -/
structure RawReply where
  result : Slice UInt8
  err : Option GoError

/-- A pod object of a store reply before decoding: a field the reply does not carry is `none`. -/
structure PodJSON (F : Type) where
  uid : Option String
  xid : Option String
  name : Option String
  cpuPrice : Option F
  memoryPrice : Option F

/-- Modelled from the spec: the decoding done inside `dgraph.ExecuteQuery` is not among the
sources; a field absent from the reply leaves the Go zero value (`""`, `0`) in the struct. -/
def decodePod {F : Type} (zero : F) (j : PodJSON F) : Models.Pod F :=
  { UID := j.uid.getD "", Xid := j.xid.getD "", Name := j.name.getD "",
    CPUPrice := j.cpuPrice.getD zero, MemoryPrice := j.memoryPrice.getD zero }

/-- Everything `query/pod.go` uses and does not define: the constants `All`,
`models.DefaultCPUCostInFloat64`, `models.DefaultMemCostInFloat64`, the zero value
`JSONDataWrapper{}`, `strconv.FormatFloat`, the two store entry points of package `dgraph`, and
the helpers of package `query` declared in other files. `F` is `float64`, `J` is
`JSONDataWrapper`, `L` is `map[string][]string`. -/
structure Deps (F J L : Type) where
  All : String
  DefaultCPUCostInFloat64 : F
  DefaultMemCostInFloat64 : F
  emptyJSONDataWrapper : J
  FormatFloat : F → Char → Int → Int → String
  ExecuteQuery : String → String → QueryReply F
  ExecuteQueryRaw : String → RawReply
  getQueryForHierarchy : String → String → String → String → String
  getQueryForPodMetrics : String → String → String → String
  getJSONDataFromQuery : String → J × List Event
  createFilterFromListOfLabels : L → String

/-- Query text of `RetrieveAllLivePods`. -/
def RetrieveAllLivePods.query : String :=
  "query \x7b\n" ++
  "\t\tpods(func: has(isPod)) @filter(NOT has(endTime)) \x7b\n" ++
  "\t\t\tuid\n" ++
  "\t\t\txid\n" ++
  "\t\t\tname\n" ++
  "\t\t\x7d\n" ++
  "\t\x7d"

/-- Go `RetrieveAllLivePods`. -/
def RetrieveAllLivePods {F J L : Type} (d : Deps F J L) : Slice (Models.Pod F) × List Event :=
  let query := RetrieveAllLivePods.query
  let reply := d.ExecuteQuery query "pods"
  match reply.err with
  | some err =>
    (none, [.executeQuery query "pods", .errorf "unable to retrieve all live pods: %v" [err]])
  | none => (reply.pods, [.executeQuery query "pods"])

/-- Query text of `RetrievePodsInteractions` for `name == All` and `isOrphan`. -/
def RetrievePodsInteractions.queryAllOrphan : String :=
  "query \x7b\n" ++
  "\t\t\t\tpods(func: has(isPod)) \x7b\n" ++
  "\t\t\t\t\tname\n" ++
  "\t\t\t\t\toutbound: pod \x7b\n" ++
  "\t\t\t\t\t\tname\n" ++
  "\t\t\t\t\t\x7d\n" ++
  "\t\t\t\t\tinbound: ~pod @filter(has(isPod)) \x7b\n" ++
  "\t\t\t\t\t\tname\n" ++
  "\t\t\t\t\t\x7d\n" ++
  "\t\t\t\t\x7d\n" ++
  "\t\t\t\x7d"

/-- Query text of `RetrievePodsInteractions` for `name == All` and not `isOrphan`. -/
def RetrievePodsInteractions.queryAllLinked : String :=
  "query \x7b\n" ++
  "\t\t\t\tpods(func: has(isPod)) @filter(has(pod)) \x7b\n" ++
  "\t\t\t\t\tname\n" ++
  "\t\t\t\t\toutbound: pod \x7b\n" ++
  "\t\t\t\t\t\tname\n" ++
  "\t\t\t\t\t\x7d\n" ++
  "\t\t\t\t\tinbound: ~pod @filter(has(isPod)) \x7b\n" ++
  "\t\t\t\t\t\tname\n" ++
  "\t\t\t\t\t\x7d\n" ++
  "\t\t\t\t\x7d\n" ++
  "\t\t\t\x7d"

/-- Raw string before `name` in the query of `RetrievePodsInteractions` for `name != All`. -/
def RetrievePodsInteractions.queryNameLead : String :=
  "query \x7b\n" ++
  "\t\t\tpods(func: has(isPod)) @filter(eq(name, \""

/-- Raw string after `name` in the query of `RetrievePodsInteractions` for `name != All`. -/
def RetrievePodsInteractions.queryNameRest : String :=
  "\")) \x7b\n" ++
  "\t\t\t\tname\n" ++
  "\t\t\t\toutbound: pod \x7b\n" ++
  "\t\t\t\t\tname\n" ++
  "\t\t\t\t\x7d\n" ++
  "\t\t\t\tinbound: ~pod @filter(has(isPod)) \x7b\n" ++
  "\t\t\t\t\tname\n" ++
  "\t\t\t\t\x7d\n" ++
  "\t\t\t\x7d\n" ++
  "\t\t\x7d"

/-- The `query` variable of `RetrievePodsInteractions` when the store is called. -/
def RetrievePodsInteractions.query (All : String) (name : String) (isOrphan : Bool) : String :=
  if name = All then
    if isOrphan then RetrievePodsInteractions.queryAllOrphan
    else RetrievePodsInteractions.queryAllLinked
  else
    RetrievePodsInteractions.queryNameLead ++ name ++ RetrievePodsInteractions.queryNameRest

/-- Go `RetrievePodsInteractions`. -/
def RetrievePodsInteractions {F J L : Type} (d : Deps F J L) (name : String) (isOrphan : Bool) :
    Slice UInt8 × List Event :=
  let query := RetrievePodsInteractions.query d.All name isOrphan
  let reply := d.ExecuteQueryRaw query
  match reply.err with
  | some err =>
    (none, [.executeQueryRaw query,
      .errorf "Error while retrieving query for pods interactions. Name: (%v), isOrphan: (%v), error: (%v)"
        [name, toString isOrphan, err]])
  | none => (reply.result, [.executeQueryRaw query])

/-- Go `RetrievePodHierarchy`. -/
def RetrievePodHierarchy {F J L : Type} (d : Deps F J L) (name : String) : J × List Event :=
  if name = d.All then
    (d.emptyJSONDataWrapper, [.errorf "wrong type of query for pod, empty name is given" []])
  else
    let query := d.getQueryForHierarchy "isPod" "pod" name "@filter(has(isContainer))"
    d.getJSONDataFromQuery query

/-- Raw string before `name` in the query of `getPricePerResourceForPod`. -/
def getPricePerResourceForPod.queryLead : String :=
  "query \x7b\n" ++
  "\t\tpod(func: has(isPod)) @filter(eq(name, \""

/-- Raw string after `name` in the query of `getPricePerResourceForPod`. -/
def getPricePerResourceForPod.queryRest : String :=
  "\")) \x7b\n" ++
  "\t\t\tcpuPrice\n" ++
  "\t\t\tmemoryPrice\n" ++
  "\t\t\x7d\n" ++
  "\t\x7d"

/-- The `query` variable of `getPricePerResourceForPod`. -/
def getPricePerResourceForPod.query (name : String) : String :=
  getPricePerResourceForPod.queryLead ++ name ++ getPricePerResourceForPod.queryRest

/-- Go `getPricePerResourceForPod`; `Pods[0]` is a checked index access. -/
def getPricePerResourceForPod {F J L : Type} (d : Deps F J L) (name : String) :
    Except GoPanic (F × F) × List Event :=
  let query := getPricePerResourceForPod.query name
  let reply := d.ExecuteQuery query "pod"
  let events := [Event.executeQuery query "pod"]
  if reply.err ≠ none ∨ reply.pods.len < 1 then
    (.ok (d.DefaultCPUCostInFloat64, d.DefaultMemCostInFloat64), events)
  else
    match reply.pods.toList[0]? with
    | none => (.error .indexOutOfRange, events)
    | some pod => (.ok (pod.CPUPrice, pod.MemoryPrice), events)

/-- Go `RetrievePodMetrics`. -/
def RetrievePodMetrics {F J L : Type} (d : Deps F J L) (name : String) :
    Except GoPanic J × List Event :=
  if name = d.All then
    (.ok d.emptyJSONDataWrapper,
      [.errorf "wrong type of query for pod, empty name is given" []])
  else
    match getPricePerResourceForPod d name with
    | (.error p, events) => (.error p, events)
    | (.ok (cpuPriceInFloat64, memoryPriceInFloat64), events) =>
      let cpuPrice := d.FormatFloat cpuPriceInFloat64 'f' 11 64
      let memoryPrice := d.FormatFloat memoryPriceInFloat64 'f' 11 64
      let query := d.getQueryForPodMetrics name cpuPrice memoryPrice
      let r := d.getJSONDataFromQuery query
      (.ok r.1, events ++ r.2)

/-- Query text of `RetrievePodsInteractionsForAllLivePodsWithCount`. -/
def RetrievePodsInteractionsForAllLivePodsWithCount.query : String :=
  "query \x7b\n" ++
  "\t\tpods(func: has(isPod)) @filter((NOT has(endTime))) \x7b\n" ++
  "\t\t\tname\n" ++
  "\t\t\tpod \x7b\n" ++
  "\t\t\t\tname\n" ++
  "\t\t\t\tcount\n" ++
  "\t\t\t\x7d\n" ++
  "\t\t\tcid: ~pod @filter(has(isService)) \x7b\n" ++
  "\t\t\t\tname\n" ++
  "\t\t\t\x7d\n" ++
  "\t\t\x7d\n" ++
  "\t\x7d"

/-- Go `RetrievePodsInteractionsForAllLivePodsWithCount`: the pair of results and the events. -/
def RetrievePodsInteractionsForAllLivePodsWithCount {F J L : Type} (d : Deps F J L) :
    (Slice (Models.Pod F) × Option GoError) × List Event :=
  let q := RetrievePodsInteractionsForAllLivePodsWithCount.query
  let reply := d.ExecuteQuery q "pods"
  match reply.err with
  | some err => ((none, some err), [.executeQuery q "pods"])
  | none => ((reply.pods, none), [.executeQuery q "pods"])

/-- The `q` variable of `RetrievePodsUIDsByLabelsFilter`. -/
def RetrievePodsUIDsByLabelsFilter.query (labelFilter : String) : String :=
  "query \x7b\n" ++
  "\t\tvar(func: has(isLabel)) @filter(" ++ labelFilter ++ ") \x7b\n" ++
  "            podUIDs as ~label @filter(has(isPod)) \x7b\n" ++
  "\t\t\t\tname\n" ++
  "\t\t\t\x7d\n" ++
  "\t\t\x7d\n" ++
  "\t\tpods(func: uid(podUIDs)) \x7b\n" ++
  "\t\t\tuid\n" ++
  "\t\t\tname\n" ++
  "\t\t\x7d\n" ++
  "\t\x7d"

/-- Go `RetrievePodsUIDsByLabelsFilter`: the pair of results and the events. -/
def RetrievePodsUIDsByLabelsFilter {F J L : Type} (d : Deps F J L) (labels : L) :
    (Slice String × Option GoError) × List Event :=
  let labelFilter := d.createFilterFromListOfLabels labels
  let q := RetrievePodsUIDsByLabelsFilter.query labelFilter
  let reply := d.ExecuteQuery q "pods"
  match reply.err with
  | some err => ((none, some err), [.executeQuery q "pods"])
  | none => ((removeDuplicates reply.pods, none), [.executeQuery q "pods"])

/-- A concrete environment for worked instances: `float64` read as `Int`, `All` the empty
string, a store that answers every query with no error and no data. -/
def exampleDeps : Deps Int Unit Unit :=
  { All := ""
    DefaultCPUCostInFloat64 := 24
    DefaultMemCostInFloat64 := 10
    emptyJSONDataWrapper := ()
    FormatFloat := fun x _ _ _ => toString x
    ExecuteQuery := fun _ _ => { err := none, pods := none }
    ExecuteQueryRaw := fun _ => { result := none, err := none }
    getQueryForHierarchy := fun a b c e => a ++ b ++ c ++ e
    getQueryForPodMetrics := fun a b c => a ++ b ++ c
    getJSONDataFromQuery := fun q => ((), [Event.executeQueryRaw q])
    createFilterFromListOfLabels := fun _ => "" }

/-- The environment `d` with a store whose `ExecuteQuery` answers every query with `reply`. -/
def Deps.withReply {F J L : Type} (d : Deps F J L) (reply : QueryReply F) : Deps F J L :=
  { d with ExecuteQuery := fun _ _ => reply }

/-- The wildcard query text up to and including the root selector `pods(func: has(isPod))`. -/
def wildcardLead : String :=
  "query \x7b\n" ++
  "\t\t\t\tpods(func: has(isPod))"

/-- The wildcard query text after the root selector and its filter, if any: the opening brace of
the root block and the projection `name`, `outbound: pod`, `inbound: ~pod`. -/
def wildcardRest : String :=
  " \x7b\n" ++
  "\t\t\t\t\tname\n" ++
  "\t\t\t\t\toutbound: pod \x7b\n" ++
  "\t\t\t\t\t\tname\n" ++
  "\t\t\t\t\t\x7d\n" ++
  "\t\t\t\t\tinbound: ~pod @filter(has(isPod)) \x7b\n" ++
  "\t\t\t\t\t\tname\n" ++
  "\t\t\t\t\t\x7d\n" ++
  "\t\t\t\t\x7d\n" ++
  "\t\t\t\x7d"

/-- Number of positions of `s` at which the text `pat` occurs. -/
def countOccurrences (pat s : String) : Nat :=
  (s.data.tails.filter (fun t => pat.data.isPrefixOf t)).length

/-- Reads the body of a double-quoted string literal of the query language, the opening quote
already consumed: the body, and the text after the closing quote. A backslash takes the next
character with it; `none` when the literal is not closed. -/
def scanStringLiteral : List Char → Option (List Char × List Char)
  | [] => none
  | c :: cs =>
    if c = '"' then some ([], cs)
    else if c = '\\' then
      match cs with
      | [] => none
      | e :: cs' => (scanStringLiteral cs').map (fun r => (c :: e :: r.1, r.2))
    else (scanStringLiteral cs).map (fun r => (c :: r.1, r.2))

/-- What is left of `q` once `lead` is read off its front; `none` when `q` does not start
with `lead`. -/
def textAfterLead : List Char → List Char → Option (List Char)
  | [], q => some q
  | _ :: _, [] => none
  | a :: l, b :: q => if a = b then textAfterLead l q else none

/-- The string literal that `lead` opens in the query text `q`, and the text of `q` after its
closing quote: `lead` ends with the opening quote, the literal is read by `scanStringLiteral`. -/
def readNameLiteral (lead q : String) : Option (String × String) :=
  match textAfterLead lead.data q.data with
  | none => none
  | some r => (scanStringLiteral r).map (fun x => (String.mk x.1, String.mk x.2))

/-- One tab less of indentation on every line after the first. -/
def dedentChars : List Char → List Char
  | [] => []
  | [c] => [c]
  | c :: e :: cs =>
    if c = '\n' ∧ e = '\t' then c :: dedentChars cs else c :: dedentChars (e :: cs)

/-- One tab less of indentation on every line of `s` after the first. -/
def dedent (s : String) : String := String.mk (dedentChars s.data)

/-- Specification side of deduplication: keep the first identifier, and of what the rest
contributes keep only identifiers different from it. -/
def firstOccurrences : List String → List String
  | [] => []
  | x :: xs => x :: (firstOccurrences xs).filter (fun y => decide (y ≠ x))

end Query

namespace Kuber

/-- The `float64` operations and `fmt` verbs `printPodsVerbose` uses, on the carrier `F`. -/
structure Float64 (F : Type) where
  /-- The literal `0.0`. -/
  zero : F
  /-- The literal `100.0`. -/
  hundred : F
  /-- Addition `+`. -/
  add : F → F → F
  /-- Multiplication `*`. -/
  mul : F → F → F
  /-- The verb `%f`. -/
  fmtF : F → String
  /-- The verb `%.2f`. -/
  fmtF2 : F → String

/-- Go `Cost`. -/
structure Cost (F : Type) where
  totalCost : F
  cpuCost : F
  memoryCost : F
  storageCost : F

/-- Go `Pod`; `pvcs` is `[]*string`, a nil pointer is `none`. -/
structure Pod (F : Type) where
  name : String
  nodeName : String
  nodeCostPercentage : F
  cost : Cost F
  pvcs : Slice (Option String)

/-- The four local accumulators of `printPodsVerbose`. -/
structure Totals (F : Type) where
  totalCost : F
  totalCPUCost : F
  totalMemoryCost : F
  totalStorageCost : F

/-- The verb `%-Ns`: the text, then blanks up to `width`. -/
def padRight (width : Nat) (s : String) : String :=
  s ++ String.mk (List.replicate (width - s.length) ' ')

/-- The inner loop `for j <= len(pods[i].pvcs)-1`: the text printed so far and how it ended. -/
def printPodsVerbose.pvcLoop (pvcs : Slice (Option String)) (j : Nat) (out : List String) :
    List String × Except GoPanic Unit :=
  if (j : Int) ≤ (pvcs.len : Int) - 1 then
    match pvcs.toList[j]? with
    | none => (out, .error .indexOutOfRange)
    | some none => (out, .error .nilDereference)
    | some (some s) => printPodsVerbose.pvcLoop pvcs (j + 1) (out ++ ["    " ++ s ++ "\n"])
  else (out, .ok ())
termination_by pvcs.len - j
decreasing_by omega

/-- The outer loop `for i <= len(pods)-1`; `pods` is `[]*Pod`, a nil pointer is `none`. -/
def printPodsVerbose.podsLoop {F : Type} (fl : Float64 F) (pods : Slice (Option (Pod F)))
    (i : Nat) (out : List String) (t : Totals F) : List String × Except GoPanic (Totals F) :=
  if (i : Int) ≤ (pods.len : Int) - 1 then
    match pods.toList[i]? with
    | none => (out, .error .indexOutOfRange)
    | some none => (out, .error .nilDereference)
    | some (some pod) =>
      let out1 := out ++
        [padRight 30 "Pod Name:" ++ pod.name ++ "\n",
         padRight 30 "Node:" ++ pod.nodeName ++ "\n",
         padRight 30 "Pod Compute Cost Percentage:" ++
           fl.fmtF2 (fl.mul pod.nodeCostPercentage fl.hundred) ++ "\n",
         padRight 30 "Persistent Volume Claims:" ++ "\n"]
      match printPodsVerbose.pvcLoop pod.pvcs 0 out1 with
      | (out2, .error e) => (out2, .error e)
      | (out2, .ok _) =>
        let out3 := out2 ++
          [padRight 30 "Cost:" ++ "\n",
           "    " ++ padRight 21 "Total Cost:" ++ fl.fmtF pod.cost.totalCost ++ "$\n",
           "    " ++ padRight 21 "CPU Cost:" ++ fl.fmtF pod.cost.cpuCost ++ "$\n",
           "    " ++ padRight 21 "Memory Cost:" ++ fl.fmtF pod.cost.memoryCost ++ "$\n",
           "    " ++ padRight 21 "Storage Cost:" ++ fl.fmtF pod.cost.storageCost ++ "$\n",
           "\n"]
        printPodsVerbose.podsLoop fl pods (i + 1) out3
          { totalCost := fl.add t.totalCost pod.cost.totalCost
            totalCPUCost := fl.add t.totalCPUCost pod.cost.cpuCost
            totalMemoryCost := fl.add t.totalMemoryCost pod.cost.memoryCost
            totalStorageCost := fl.add t.totalStorageCost pod.cost.storageCost }
  else (out, .ok t)
termination_by pods.len - i
decreasing_by omega

/-- The four lines printed after the line `Total Cost Summary:`. -/
def summaryLines {F : Type} (fl : Float64 F) (t : Totals F) : List String :=
  ["    " ++ padRight 21 "Total Cost:" ++ fl.fmtF t.totalCost ++ "$\n",
   "    " ++ padRight 21 "CPU Cost:" ++ fl.fmtF t.totalCPUCost ++ "$\n",
   "    " ++ padRight 21 "Memory Cost:" ++ fl.fmtF t.totalMemoryCost ++ "$\n",
   "    " ++ padRight 21 "Storage Cost:" ++ fl.fmtF t.totalStorageCost ++ "$\n"]

/-- Go `printPodsVerbose`: the text printed, one entry for each `Printf`, and the final value of
the four accumulators, or the panic that stopped the function. -/
def printPodsVerbose {F : Type} (fl : Float64 F) (pods : Slice (Option (Pod F))) :
    List String × Except GoPanic (Totals F) :=
  match printPodsVerbose.podsLoop fl pods 0 ["==Pods Cost Details==\n"]
      { totalCost := fl.zero, totalCPUCost := fl.zero, totalMemoryCost := fl.zero,
        totalStorageCost := fl.zero } with
  | (out, .error e) => (out, .error e)
  | (out, .ok t) =>
    (out ++ [padRight 30 "Total Cost Summary:" ++ "\n"] ++ summaryLines fl t, .ok t)

/-- Specification side: the sum of the cost field `field` over the pods, from `0.0`, the pods
taken in list order. -/
def sumField {F : Type} (fl : Float64 F) (field : Cost F → F) (ps : List (Pod F)) : F :=
  (ps.map (fun p => field p.cost)).foldl fl.add fl.zero

/-- Specification side: the lines printed for one pod, its volume claims between the line
`Persistent Volume Claims:` and the line `Cost:`. -/
def podLines {F : Type} (fl : Float64 F) (pod : Pod F) : List String :=
  [padRight 30 "Pod Name:" ++ pod.name ++ "\n",
   padRight 30 "Node:" ++ pod.nodeName ++ "\n",
   padRight 30 "Pod Compute Cost Percentage:" ++
     fl.fmtF2 (fl.mul pod.nodeCostPercentage fl.hundred) ++ "\n",
   padRight 30 "Persistent Volume Claims:" ++ "\n"] ++
  (pod.pvcs.toList.filterMap id).map (fun s => "    " ++ s ++ "\n") ++
  [padRight 30 "Cost:" ++ "\n",
   "    " ++ padRight 21 "Total Cost:" ++ fl.fmtF pod.cost.totalCost ++ "$\n",
   "    " ++ padRight 21 "CPU Cost:" ++ fl.fmtF pod.cost.cpuCost ++ "$\n",
   "    " ++ padRight 21 "Memory Cost:" ++ fl.fmtF pod.cost.memoryCost ++ "$\n",
   "    " ++ padRight 21 "Storage Cost:" ++ fl.fmtF pod.cost.storageCost ++ "$\n",
   "\n"]

/-- Specification side: the lines printed for the pods, in list order. -/
def podsLines {F : Type} (fl : Float64 F) : List (Pod F) → List String
  | [] => []
  | pod :: ps => podLines fl pod ++ podsLines fl ps

/-- The four additions at the end of the loop body of `printPodsVerbose`. -/
def Totals.addPod {F : Type} (fl : Float64 F) (t : Totals F) (pod : Pod F) : Totals F :=
  { totalCost := fl.add t.totalCost pod.cost.totalCost
    totalCPUCost := fl.add t.totalCPUCost pod.cost.cpuCost
    totalMemoryCost := fl.add t.totalMemoryCost pod.cost.memoryCost
    totalStorageCost := fl.add t.totalStorageCost pod.cost.storageCost }

/-- A concrete carrier for worked instances: `float64` read as `Int`. -/
def exampleFloat64 : Float64 Int :=
  { zero := 0, hundred := 100, add := fun a b => a + b, mul := fun a b => a * b,
    fmtF := fun x => toString x, fmtF2 := fun x => toString x }

/-- Two pods, the first with one volume claim. -/
def examplePods : List (Pod Int) :=
  [{ name := "web-1", nodeName := "node-a", nodeCostPercentage := 1,
     cost := { totalCost := 6, cpuCost := 3, memoryCost := 2, storageCost := 1 },
     pvcs := some [some "data"] },
   { name := "web-2", nodeName := "node-b", nodeCostPercentage := 2,
     cost := { totalCost := 60, cpuCost := 30, memoryCost := 20, storageCost := 10 },
     pvcs := none }]

/-- The slice of pointers to the two pods of `examplePods`. -/
def examplePodSlice : Slice (Option (Pod Int)) := some (examplePods.map some)

end Kuber

/-! ## Deduplication -/

namespace Query

theorem firstOccurrences_mem (ids : List String) (u : String) :
    u ∈ firstOccurrences ids ↔ u ∈ ids := by
  induction ids with
  | nil => simp [firstOccurrences]
  | cons x xs ih =>
    simp only [firstOccurrences, List.mem_cons, List.mem_filter, ih, decide_eq_true_eq]
    by_cases h : u = x <;> simp [h]

theorem firstOccurrences_nodup (ids : List String) : (firstOccurrences ids).Nodup := by
  induction ids with
  | nil => simp [firstOccurrences]
  | cons x xs ih =>
    simp only [firstOccurrences, List.nodup_cons, List.mem_filter, decide_eq_true_eq]
    exact ⟨fun h => h.2 rfl, ih.filter _⟩

theorem firstOccurrences_sublist (ids : List String) : (firstOccurrences ids).Sublist ids := by
  induction ids with
  | nil => simp [firstOccurrences]
  | cons x xs ih =>
    simp only [firstOccurrences]
    exact ((List.filter_sublist _).trans ih).cons₂ x

theorem firstOccurrences_order (ids : List String) :
    (firstOccurrences ids).Pairwise (fun a b => ids.indexOf a < ids.indexOf b) := by
  induction ids with
  | nil => simp [firstOccurrences]
  | cons x xs ih =>
    simp only [firstOccurrences, List.pairwise_cons, List.mem_filter, decide_eq_true_eq]
    refine ⟨fun b hb => ?_, ?_⟩
    · rw [List.indexOf_cons_self, List.indexOf_cons_ne _ (Ne.symm hb.2)]
      exact Nat.succ_pos _
    · have h := ih.filter (fun y => decide (y ≠ x))
      refine List.Pairwise.imp_of_mem ?_ h
      intro a b ha hb hab
      have ha' : a ≠ x := by simpa using (List.mem_filter.1 ha).2
      have hb' : b ≠ x := by simpa using (List.mem_filter.1 hb).2
      rw [List.indexOf_cons_ne _ (Ne.symm ha'), List.indexOf_cons_ne _ (Ne.symm hb')]
      exact Nat.succ_lt_succ hab

/-- Invariant of the loop of `removeDuplicates`: started with a map whose keys are `seen` and a
slice `acc`, the loop appends to `acc` the first occurrences among the remaining pods of the
identifiers not in `seen`; the slice stays nil only while nothing has been appended. -/
theorem removeDuplicates_fold {F : Type} (l : List (Models.Pod F)) :
    ∀ (m : StringBoolMap) (acc : Slice String) (seen : List String),
      (∀ k, m k ≠ none ↔ k ∈ seen) →
      (l.foldl removeDuplicates.step (m, acc)).2 =
        (if (firstOccurrences (l.map (fun p => p.UID))).filter (fun y => decide (y ∉ seen)) = []
          then acc
          else some (acc.toList ++
            (firstOccurrences (l.map (fun p => p.UID))).filter (fun y => decide (y ∉ seen)))) := by
  induction l with
  | nil => intro m acc seen _; simp [firstOccurrences]
  | cons p ps ih =>
    intro m acc seen hm
    simp only [List.foldl_cons, List.map_cons, firstOccurrences]
    cases hmp : m p.UID with
    | none =>
      have hp : p.UID ∉ seen := fun h => ((hm p.UID).2 h) hmp
      have hstep : removeDuplicates.step (m, acc) p = (m.set p.UID true, acc.push p.UID) := by
        simp [removeDuplicates.step, hmp]
      have hm' : ∀ k, (m.set p.UID true) k ≠ none ↔ k ∈ p.UID :: seen := by
        intro k
        by_cases hk : k = p.UID
        · simp [StringBoolMap.set, hk]
        · simp [StringBoolMap.set, hk, hm k]
      rw [hstep, ih _ _ _ hm']
      have hfilt : ((firstOccurrences (ps.map (fun p => p.UID))).filter
            (fun y => decide (y ≠ p.UID))).filter (fun y => decide (y ∉ seen)) =
          (firstOccurrences (ps.map (fun p => p.UID))).filter
            (fun y => decide (y ∉ p.UID :: seen)) := by
        rw [List.filter_filter]
        apply List.filter_congr
        intro y _
        by_cases hy : y = p.UID <;> simp [hy, hp]
      rw [List.filter_cons_of_pos (by simpa using hp), hfilt]
      split <;> simp_all [Slice.push, Slice.toList]
    | some b =>
      have hp : p.UID ∈ seen := (hm p.UID).1 (by simp [hmp])
      have hstep : removeDuplicates.step (m, acc) p = (m, acc) := by
        simp [removeDuplicates.step, hmp]
      rw [hstep, ih _ _ _ hm]
      have hfilt : ((firstOccurrences (ps.map (fun p => p.UID))).filter
            (fun y => decide (y ≠ p.UID))).filter (fun y => decide (y ∉ seen)) =
          (firstOccurrences (ps.map (fun p => p.UID))).filter
            (fun y => decide (y ∉ seen)) := by
        rw [List.filter_filter]
        apply List.filter_congr
        intro y _
        by_cases hy : y = p.UID <;> simp [hy, hp]
      rw [List.filter_cons_of_neg (by simpa using hp), hfilt]

theorem removeDuplicates_toList {F : Type} (pods : Slice (Models.Pod F)) :
    (removeDuplicates pods).toList = firstOccurrences (pods.toList.map (fun p => p.UID)) := by
  unfold removeDuplicates
  rw [removeDuplicates_fold pods.toList StringBoolMap.empty none [] (by simp [StringBoolMap.empty])]
  simp only [List.not_mem_nil, not_false_eq_true, decide_True, List.filter_true]
  split
  · rename_i h; rw [h]; rfl
  · rfl

/-- C1: for every slice of pods, `removeDuplicates` returns the first-occurrence deduplication
of the pods' UIDs: no UID is repeated; a UID is in the output exactly when some input pod carries
it; the output is a subsequence of the input UID list, ordered by first occurrence, and equal to
`firstOccurrences` of that list; its length is at most the input length; the nil and the empty
slice give the nil (empty) slice; and UIDs `[a,b,a,c,b]` give `[a,b,c]`. -/
theorem removeDuplicates_first_occurrence_dedup {F : Type} (pods : Slice (Models.Pod F)) :
    (removeDuplicates pods).toList.Nodup ∧
    (∀ u, u ∈ (removeDuplicates pods).toList ↔ ∃ p ∈ pods.toList, p.UID = u) ∧
    (removeDuplicates pods).toList.Sublist (pods.toList.map (fun p => p.UID)) ∧
    (removeDuplicates pods).toList.Pairwise (fun a b =>
      (pods.toList.map (fun p => p.UID)).indexOf a <
        (pods.toList.map (fun p => p.UID)).indexOf b) ∧
    (removeDuplicates pods).toList = firstOccurrences (pods.toList.map (fun p => p.UID)) ∧
    (removeDuplicates pods).len ≤ pods.len ∧
    removeDuplicates (none : Slice (Models.Pod F)) = none ∧
    removeDuplicates (some [] : Slice (Models.Pod F)) = none ∧
    (∀ x y : F, (removeDuplicates (some
        [({ UID := "a", Xid := "", Name := "", CPUPrice := x, MemoryPrice := y } : Models.Pod F),
         { UID := "b", Xid := "", Name := "", CPUPrice := x, MemoryPrice := y },
         { UID := "a", Xid := "", Name := "", CPUPrice := x, MemoryPrice := y },
         { UID := "c", Xid := "", Name := "", CPUPrice := x, MemoryPrice := y },
         { UID := "b", Xid := "", Name := "", CPUPrice := x, MemoryPrice := y }])).toList =
      ["a", "b", "c"]) := by
  have h := removeDuplicates_toList pods
  refine ⟨?_, ?_, ?_, ?_, h, ?_, rfl, rfl, ?_⟩
  · rw [h]; exact firstOccurrences_nodup _
  · intro u
    rw [h, firstOccurrences_mem]
    simp
  · rw [h]; exact firstOccurrences_sublist _
  · rw [h]; exact firstOccurrences_order _
  · have hl := (firstOccurrences_sublist (pods.toList.map (fun p => p.UID))).length_le
    simpa [Slice.len, h] using hl
  · intro x y
    rw [removeDuplicates_toList]
    show firstOccurrences ["a", "b", "a", "c", "b"] = ["a", "b", "c"]
    decide

/-! ## Store calls issued by the interaction and price lookups -/

theorem RetrievePodsInteractions_store_calls {F J L : Type} (d : Deps F J L) (name : String)
    (isOrphan : Bool) :
    (RetrievePodsInteractions d name isOrphan).2.filter Event.isStoreCall =
      [Event.executeQueryRaw (RetrievePodsInteractions.query d.All name isOrphan)] := by
  unfold RetrievePodsInteractions
  cases h : (d.ExecuteQueryRaw (RetrievePodsInteractions.query d.All name isOrphan)).err <;>
    simp [h, Event.isStoreCall]

theorem getPricePerResourceForPod_events {F J L : Type} (d : Deps F J L) (name : String) :
    (getPricePerResourceForPod d name).2 =
      [Event.executeQuery (getPricePerResourceForPod.query name) "pod"] := by
  unfold getPricePerResourceForPod
  simp only
  split
  · rfl
  · split <;> rfl

/-! ## Wildcard name, error propagation, best-effort listings -/

/-- C2: when `name` is the wildcard `All`, `RetrievePodHierarchy` and `RetrievePodMetrics`
return the empty `JSONDataWrapper`, and the only thing they do is write one log line: no
`ExecuteQuery`, no `ExecuteQueryRaw`, no price lookup and no helper call, whatever the store and
the helpers would have answered. -/
theorem wildcard_hierarchy_and_metrics_skip_store {F J L : Type} (d : Deps F J L) :
    RetrievePodHierarchy d d.All =
      (d.emptyJSONDataWrapper,
        [Event.errorf "wrong type of query for pod, empty name is given" []]) ∧
    RetrievePodMetrics d d.All =
      (Except.ok d.emptyJSONDataWrapper,
        [Event.errorf "wrong type of query for pod, empty name is given" []]) ∧
    (RetrievePodHierarchy d d.All).2.filter Event.isStoreCall = [] ∧
    (RetrievePodMetrics d d.All).2.filter Event.isStoreCall = [] := by
  simp [RetrievePodHierarchy, RetrievePodMetrics, Event.isStoreCall]

/-- C6: `RetrievePodsInteractionsForAllLivePodsWithCount` and `RetrievePodsUIDsByLabelsFilter`
each issue exactly one `ExecuteQuery` call and return a non-nil error exactly when that call
does; then the error is the store's error and the list is nil; otherwise the error is nil and
the result is the decoded pods, respectively `removeDuplicates` of the decoded pods. -/
theorem store_error_is_propagated {F J L : Type} (d : Deps F J L) (labels : L) :
    (RetrievePodsInteractionsForAllLivePodsWithCount d).2 =
      [Event.executeQuery RetrievePodsInteractionsForAllLivePodsWithCount.query "pods"] ∧
    ((RetrievePodsInteractionsForAllLivePodsWithCount d).1.2 ≠ none ↔
      (d.ExecuteQuery RetrievePodsInteractionsForAllLivePodsWithCount.query "pods").err ≠ none) ∧
    (RetrievePodsInteractionsForAllLivePodsWithCount d).1 =
      (if (d.ExecuteQuery RetrievePodsInteractionsForAllLivePodsWithCount.query "pods").err = none
        then ((d.ExecuteQuery RetrievePodsInteractionsForAllLivePodsWithCount.query "pods").pods,
          none)
        else (none,
          (d.ExecuteQuery RetrievePodsInteractionsForAllLivePodsWithCount.query "pods").err)) ∧
    (RetrievePodsUIDsByLabelsFilter d labels).2 =
      [Event.executeQuery
        (RetrievePodsUIDsByLabelsFilter.query (d.createFilterFromListOfLabels labels)) "pods"] ∧
    ((RetrievePodsUIDsByLabelsFilter d labels).1.2 ≠ none ↔
      (d.ExecuteQuery
        (RetrievePodsUIDsByLabelsFilter.query (d.createFilterFromListOfLabels labels))
        "pods").err ≠ none) ∧
    (RetrievePodsUIDsByLabelsFilter d labels).1 =
      (if (d.ExecuteQuery
          (RetrievePodsUIDsByLabelsFilter.query (d.createFilterFromListOfLabels labels))
          "pods").err = none
        then (removeDuplicates (d.ExecuteQuery
          (RetrievePodsUIDsByLabelsFilter.query (d.createFilterFromListOfLabels labels))
          "pods").pods, none)
        else (none, (d.ExecuteQuery
          (RetrievePodsUIDsByLabelsFilter.query (d.createFilterFromListOfLabels labels))
          "pods").err)) := by
  unfold RetrievePodsInteractionsForAllLivePodsWithCount RetrievePodsUIDsByLabelsFilter
  cases h1 : (d.ExecuteQuery RetrievePodsInteractionsForAllLivePodsWithCount.query "pods").err <;>
  cases h2 : (d.ExecuteQuery
      (RetrievePodsUIDsByLabelsFilter.query (d.createFilterFromListOfLabels labels))
      "pods").err <;>
    simp [h1, h2]

/-- C7: the best-effort listings never fail and never reshape the reply. `RetrieveAllLivePods`
returns nil when `ExecuteQuery` returns an error and otherwise exactly the decoded `pods`;
`RetrievePodsInteractions` returns nil when `ExecuteQueryRaw` returns an error and otherwise
exactly the bytes the store returned, for every name and `isOrphan`. -/
theorem best_effort_listings_fail_safe {F J L : Type} (d : Deps F J L) (name : String)
    (isOrphan : Bool) :
    (RetrieveAllLivePods d).1 =
      (if (d.ExecuteQuery RetrieveAllLivePods.query "pods").err = none
        then (d.ExecuteQuery RetrieveAllLivePods.query "pods").pods
        else none) ∧
    (RetrieveAllLivePods d).2.filter Event.isStoreCall =
      [Event.executeQuery RetrieveAllLivePods.query "pods"] ∧
    (RetrievePodsInteractions d name isOrphan).1 =
      (if (d.ExecuteQueryRaw (RetrievePodsInteractions.query d.All name isOrphan)).err = none
        then (d.ExecuteQueryRaw (RetrievePodsInteractions.query d.All name isOrphan)).result
        else none) ∧
    (RetrievePodsInteractions d name isOrphan).2.filter Event.isStoreCall =
      [Event.executeQueryRaw (RetrievePodsInteractions.query d.All name isOrphan)] := by
  unfold RetrieveAllLivePods RetrievePodsInteractions
  cases h1 : (d.ExecuteQuery RetrieveAllLivePods.query "pods").err <;>
  cases h2 : (d.ExecuteQueryRaw (RetrievePodsInteractions.query d.All name isOrphan)).err <;>
    simp [h1, h2, Event.isStoreCall]

/-! ## Unit prices -/

/-- C8: `getPricePerResourceForPod` is total: for every name and every store outcome it issues
its one `ExecuteQuery` call and returns a price pair, the index access `Pods[0]` never being out
of range; when the store call errors or decodes no pod the pair is exactly the two default
constants; with a pod decoded and no error it is that first pod's pair. `RetrievePodMetrics`,
for a name other than `All`, then passes the default pair through
`strconv.FormatFloat(_, 'f', 11, 64)` into `getQueryForPodMetrics`. -/
theorem getPricePerResourceForPod_total {F J L : Type} (d : Deps F J L) (name : String) :
    (∃ prices : F × F, getPricePerResourceForPod d name =
      (Except.ok prices, [Event.executeQuery (getPricePerResourceForPod.query name) "pod"])) ∧
    ((d.ExecuteQuery (getPricePerResourceForPod.query name) "pod").err ≠ none ∨
        (d.ExecuteQuery (getPricePerResourceForPod.query name) "pod").pods.len < 1 →
      (getPricePerResourceForPod d name).1 =
        Except.ok (d.DefaultCPUCostInFloat64, d.DefaultMemCostInFloat64)) ∧
    (∀ pod rest, (d.ExecuteQuery (getPricePerResourceForPod.query name) "pod").err = none →
      (d.ExecuteQuery (getPricePerResourceForPod.query name) "pod").pods = some (pod :: rest) →
      (getPricePerResourceForPod d name).1 = Except.ok (pod.CPUPrice, pod.MemoryPrice)) ∧
    ((d.ExecuteQuery (getPricePerResourceForPod.query name) "pod").err ≠ none ∨
        (d.ExecuteQuery (getPricePerResourceForPod.query name) "pod").pods.len < 1 →
      name ≠ d.All →
      RetrievePodMetrics d name =
        (Except.ok (d.getJSONDataFromQuery (d.getQueryForPodMetrics name
            (d.FormatFloat d.DefaultCPUCostInFloat64 'f' 11 64)
            (d.FormatFloat d.DefaultMemCostInFloat64 'f' 11 64))).1,
          Event.executeQuery (getPricePerResourceForPod.query name) "pod" ::
            (d.getJSONDataFromQuery (d.getQueryForPodMetrics name
              (d.FormatFloat d.DefaultCPUCostInFloat64 'f' 11 64)
              (d.FormatFloat d.DefaultMemCostInFloat64 'f' 11 64))).2)) := by
  have hdef : (d.ExecuteQuery (getPricePerResourceForPod.query name) "pod").err ≠ none ∨
        (d.ExecuteQuery (getPricePerResourceForPod.query name) "pod").pods.len < 1 →
      getPricePerResourceForPod d name =
        (Except.ok (d.DefaultCPUCostInFloat64, d.DefaultMemCostInFloat64),
          [Event.executeQuery (getPricePerResourceForPod.query name) "pod"]) := by
    intro h
    unfold getPricePerResourceForPod
    simp only [if_pos h]
  have hpod : ∀ pod rest,
      (d.ExecuteQuery (getPricePerResourceForPod.query name) "pod").err = none →
      (d.ExecuteQuery (getPricePerResourceForPod.query name) "pod").pods = some (pod :: rest) →
      getPricePerResourceForPod d name =
        (Except.ok (pod.CPUPrice, pod.MemoryPrice),
          [Event.executeQuery (getPricePerResourceForPod.query name) "pod"]) := by
    intro pod rest he hp
    unfold getPricePerResourceForPod
    simp [he, hp, Slice.len, Slice.toList]
  refine ⟨?_, fun h => by rw [hdef h], fun pod rest he hp => by rw [hpod pod rest he hp], ?_⟩
  · by_cases h : (d.ExecuteQuery (getPricePerResourceForPod.query name) "pod").err ≠ none ∨
        (d.ExecuteQuery (getPricePerResourceForPod.query name) "pod").pods.len < 1
    · exact ⟨_, hdef h⟩
    · have he : (d.ExecuteQuery (getPricePerResourceForPod.query name) "pod").err = none := by
        by_contra hc; exact h (Or.inl hc)
      cases hp : (d.ExecuteQuery (getPricePerResourceForPod.query name) "pod").pods with
      | none => exact absurd (Or.inr (by simp [hp, Slice.len, Slice.toList])) h
      | some l =>
        cases l with
        | nil => exact absurd (Or.inr (by simp [hp, Slice.len, Slice.toList])) h
        | cons pod rest => exact ⟨_, hpod pod rest he hp⟩
  · intro h hname
    unfold RetrievePodMetrics
    rw [if_neg hname, hdef h]
    rfl

/-- C4 (the code at the failing input): when the reply holds the pod and no error, the pair
returned is the decoded pod's own pair, so a price field absent from the reply comes back as the
zero value: both absent give `(zero, zero)`, an absent `memoryPrice` next to a stored `cpuPrice`
gives `(c, zero)`; the default constants are not consulted. -/
theorem getPricePerResourceForPod_absent_price_is_zero {F J L : Type} (d : Deps F J L)
    (zero c : F) (name : String) :
    (getPricePerResourceForPod
      (d.withReply { err := none, pods := some [decodePod zero
        { uid := none, xid := none, name := none, cpuPrice := none, memoryPrice := none }] })
      name).1 = Except.ok (zero, zero) ∧
    (getPricePerResourceForPod
      (d.withReply { err := none, pods := some [decodePod zero
        { uid := none, xid := none, name := none, cpuPrice := some c, memoryPrice := none }] })
      name).1 = Except.ok (c, zero) := by
  constructor <;>
    simp [getPricePerResourceForPod, Deps.withReply, decodePod, Slice.len, Slice.toList]

/-! ## Query texts of `RetrievePodsInteractions` -/

/-- C3: for `name = All` the text sent with `isOrphan = false` is the text sent with
`isOrphan = true` with the one clause ` @filter(has(pod))` put right after the root selector
`pods(func: has(isPod))`, character for character; that clause occurs once in the former and not
at all in the latter, whose root selector is followed directly by the block and whose only
`@filter` is the one on the `inbound` edge. -/
theorem wildcard_interaction_queries_differ_in_filter {F J L : Type} (d : Deps F J L) :
    (RetrievePodsInteractions d d.All false).2.filter Event.isStoreCall =
      [Event.executeQueryRaw (wildcardLead ++ " @filter(has(pod))" ++ wildcardRest)] ∧
    (RetrievePodsInteractions d d.All true).2.filter Event.isStoreCall =
      [Event.executeQueryRaw (wildcardLead ++ wildcardRest)] ∧
    countOccurrences " @filter(has(pod))"
      (wildcardLead ++ " @filter(has(pod))" ++ wildcardRest) = 1 ∧
    countOccurrences " @filter(has(pod))" (wildcardLead ++ wildcardRest) = 0 ∧
    countOccurrences "pods(func: has(isPod)) \x7b" (wildcardLead ++ wildcardRest) = 1 ∧
    countOccurrences "@filter" (wildcardLead ++ wildcardRest) = 1 ∧
    countOccurrences "inbound: ~pod @filter(has(isPod))" (wildcardLead ++ wildcardRest) = 1 := by
  have hT : RetrievePodsInteractions.query d.All d.All true = wildcardLead ++ wildcardRest := by
    have h : RetrievePodsInteractions.queryAllOrphan = wildcardLead ++ wildcardRest := by decide
    simp [RetrievePodsInteractions.query, h]
  have hF : RetrievePodsInteractions.query d.All d.All false =
      wildcardLead ++ " @filter(has(pod))" ++ wildcardRest := by
    have h : RetrievePodsInteractions.queryAllLinked =
        wildcardLead ++ " @filter(has(pod))" ++ wildcardRest := by decide
    simp [RetrievePodsInteractions.query, h]
  refine ⟨?_, ?_, by decide, by decide, by decide, by decide, by decide⟩
  · rw [RetrievePodsInteractions_store_calls, hF]
  · rw [RetrievePodsInteractions_store_calls, hT]

theorem queryNameLead_eq :
    RetrievePodsInteractions.queryNameLead = dedent wildcardLead ++ " @filter(eq(name, \"" := by
  decide

theorem queryNameRest_eq :
    RetrievePodsInteractions.queryNameRest = "\"))" ++ dedent wildcardRest := by
  decide

theorem query_of_name {All name : String} (isOrphan : Bool) (h : name ≠ All) :
    RetrievePodsInteractions.query All name isOrphan =
      RetrievePodsInteractions.queryNameLead ++ name ++ RetrievePodsInteractions.queryNameRest := by
  simp [RetrievePodsInteractions.query, h]

/-- C9 (as stated, refuted): no way of cutting the wildcard `isOrphan = true` text in two and
putting the clause ` @filter(eq(name, "web-1"))` in between gives the text sent for the name
`web-1`. -/
theorem named_query_is_not_wildcard_text_plus_clause :
    ¬ ∃ lead rest : String,
      (RetrievePodsInteractions exampleDeps exampleDeps.All true).2.filter Event.isStoreCall =
        [Event.executeQueryRaw (lead ++ rest)] ∧
      (RetrievePodsInteractions exampleDeps "web-1" false).2.filter Event.isStoreCall =
        [Event.executeQueryRaw (lead ++ " @filter(eq(name, \"web-1\"))" ++ rest)] := by
  rintro ⟨lead, rest, h1, h2⟩
  rw [RetrievePodsInteractions_store_calls] at h1 h2
  simp only [List.cons.injEq, Event.executeQueryRaw.injEq, and_true] at h1 h2
  have l1 := congrArg String.length h1
  have l2 := congrArg String.length h2
  simp only [String.length_append] at l1 l2
  have e1 : (RetrievePodsInteractions.query exampleDeps.All exampleDeps.All true).length = 155 := by
    decide
  have e2 : (RetrievePodsInteractions.query exampleDeps.All "web-1" false).length = 172 := by
    decide
  have e3 : (" @filter(eq(name, \"web-1\"))" : String).length = 27 := by decide
  omega

/-- C9 (amended): for every name other than `All`, the text sent is the wildcard
`isOrphan = true` text, with one tab less of indentation on each line after the first, and with
the single clause ` @filter(eq(name, "<name>"))` put right after the root selector
`pods(func: has(isPod))`; it does not depend on `isOrphan`, the fixed text around the name holds
no `has(pod)`, and the projection after the clause is that of the wildcard texts. -/
theorem named_interaction_query_text {F J L : Type} (d : Deps F J L) (name : String)
    (isOrphan : Bool) (hname : name ≠ d.All) :
    (RetrievePodsInteractions d name isOrphan).2.filter Event.isStoreCall =
      [Event.executeQueryRaw
        (dedent wildcardLead ++ " @filter(eq(name, \"" ++ name ++ "\"))" ++ dedent wildcardRest)] ∧
    (RetrievePodsInteractions d d.All true).2.filter Event.isStoreCall =
      [Event.executeQueryRaw (wildcardLead ++ wildcardRest)] ∧
    RetrievePodsInteractions.query d.All name true =
      RetrievePodsInteractions.query d.All name false ∧
    countOccurrences "has(pod)" (dedent wildcardLead) = 0 ∧
    countOccurrences "has(pod)" (dedent wildcardRest) = 0 ∧
    dedent wildcardLead = "query \x7b\n\t\t\tpods(func: has(isPod))" ∧
    dedent wildcardRest =
      " \x7b\n" ++
      "\t\t\t\tname\n" ++
      "\t\t\t\toutbound: pod \x7b\n" ++
      "\t\t\t\t\tname\n" ++
      "\t\t\t\t\x7d\n" ++
      "\t\t\t\tinbound: ~pod @filter(has(isPod)) \x7b\n" ++
      "\t\t\t\t\tname\n" ++
      "\t\t\t\t\x7d\n" ++
      "\t\t\t\x7d\n" ++
      "\t\t\x7d" := by
  have hT : RetrievePodsInteractions.query d.All d.All true = wildcardLead ++ wildcardRest := by
    have h : RetrievePodsInteractions.queryAllOrphan = wildcardLead ++ wildcardRest := by decide
    simp [RetrievePodsInteractions.query, h]
  refine ⟨?_, ?_, ?_, by decide, by decide, by decide, by decide⟩
  · rw [RetrievePodsInteractions_store_calls, query_of_name isOrphan hname, queryNameLead_eq,
      queryNameRest_eq]
    simp only [String.append_assoc]
  · rw [RetrievePodsInteractions_store_calls, hT]
  · rw [query_of_name true hname, query_of_name false hname]

/-- C9 (amended), at the name `web-1` with `All` the empty string. -/
theorem named_interaction_query_text_witness :
    "web-1" ≠ exampleDeps.All ∧
    (RetrievePodsInteractions exampleDeps "web-1" false).2.filter Event.isStoreCall =
      [Event.executeQueryRaw
        (dedent wildcardLead ++ " @filter(eq(name, \"" ++ "web-1" ++ "\"))" ++
          dedent wildcardRest)] :=
  ⟨by decide, (named_interaction_query_text exampleDeps "web-1" false (by decide)).1⟩

/-! ## Interpolation of the name into the query text -/

theorem textAfterLead_append (l x : List Char) : textAfterLead l (l ++ x) = some x := by
  induction l with
  | nil => cases x <;> rfl
  | cons a l ih => simp [textAfterLead, ih]

theorem scanStringLiteral_quote (rest : List Char) :
    scanStringLiteral ('"' :: rest) = some ([], rest) := by
  rw [scanStringLiteral.eq_def]; simp

theorem scanStringLiteral_plain_cons (a : Char) (cs : List Char) (h1 : a ≠ '"')
    (h2 : a ≠ '\\') :
    scanStringLiteral (a :: cs) = (scanStringLiteral cs).map (fun r => (a :: r.1, r.2)) := by
  rw [scanStringLiteral.eq_def]; simp [h1, h2]

theorem scanStringLiteral_plain (l rest : List Char)
    (h : ∀ c ∈ l, c ≠ '"' ∧ c ≠ '\\') :
    scanStringLiteral (l ++ '"' :: rest) = some (l, rest) := by
  induction l with
  | nil => exact scanStringLiteral_quote rest
  | cons a l ih =>
    have ha := h a (List.mem_cons_self a l)
    have hl : ∀ c ∈ l, c ≠ '"' ∧ c ≠ '\\' := fun c hc => h c (List.mem_cons_of_mem a hc)
    rw [List.cons_append, scanStringLiteral_plain_cons a _ ha.1 ha.2, ih hl]
    rfl

theorem readNameLiteral_plain (lead name rest : String) (tail : List Char)
    (hrest : rest.data = '"' :: tail) (h : ∀ c ∈ name.data, c ≠ '"' ∧ c ≠ '\\') :
    readNameLiteral lead (lead ++ name ++ rest) = some (name, String.mk tail) := by
  unfold readNameLiteral
  have hd : (lead ++ name ++ rest).data = lead.data ++ (name.data ++ '"' :: tail) := by
    simp [String.data_append, hrest]
  rw [hd, textAfterLead_append]
  simp [scanStringLiteral_plain name.data tail h]

/-- C5 (as stated, refuted): the name `a"b` is not rejected, the store call is issued, and the
text sent carries the quote as it came: the string literal of the `eq(name, "...")` clause ends
after `a`, and the text after the literal is not the text that follows the literal for the name
`web-1`; the same in `getPricePerResourceForPod`. -/
theorem quote_in_name_ends_the_literal :
    "a\"b" ≠ exampleDeps.All ∧
    (RetrievePodsInteractions exampleDeps "a\"b" false).2.filter Event.isStoreCall =
      [Event.executeQueryRaw (RetrievePodsInteractions.queryNameLead ++ "a\"b" ++
        RetrievePodsInteractions.queryNameRest)] ∧
    readNameLiteral RetrievePodsInteractions.queryNameLead
        (RetrievePodsInteractions.query exampleDeps.All "a\"b" false) =
      some ("a", "b" ++ RetrievePodsInteractions.queryNameRest) ∧
    readNameLiteral RetrievePodsInteractions.queryNameLead
        (RetrievePodsInteractions.query exampleDeps.All "web-1" false) =
      some ("web-1", String.mk RetrievePodsInteractions.queryNameRest.data.tail) ∧
    "b" ++ RetrievePodsInteractions.queryNameRest ≠
      String.mk RetrievePodsInteractions.queryNameRest.data.tail ∧
    (getPricePerResourceForPod exampleDeps "a\"b").2 =
      [Event.executeQuery (getPricePerResourceForPod.queryLead ++ "a\"b" ++
        getPricePerResourceForPod.queryRest) "pod"] ∧
    readNameLiteral getPricePerResourceForPod.queryLead
        (getPricePerResourceForPod.query "a\"b") =
      some ("a", "b" ++ getPricePerResourceForPod.queryRest) ∧
    readNameLiteral getPricePerResourceForPod.queryLead
        (getPricePerResourceForPod.query "web-1") =
      some ("web-1", String.mk getPricePerResourceForPod.queryRest.data.tail) ∧
    "b" ++ getPricePerResourceForPod.queryRest ≠
      String.mk getPricePerResourceForPod.queryRest.data.tail := by
  refine ⟨by decide, ?_, by decide, by decide, by decide, ?_, by decide, by decide, by decide⟩
  · rw [RetrievePodsInteractions_store_calls, query_of_name false (by decide)]
  · rw [getPricePerResourceForPod_events]; rfl

theorem readNameLiteral_quoted (lead a b rest : String)
    (h : ∀ c ∈ a.data, c ≠ '"' ∧ c ≠ '\\') :
    readNameLiteral lead (lead ++ (a ++ "\"" ++ b) ++ rest) = some (a, b ++ rest) := by
  have e : lead ++ (a ++ "\"" ++ b) ++ rest = lead ++ a ++ ("\"" ++ (b ++ rest)) := by
    simp only [String.append_assoc]
  rw [e]
  have hd : ("\"" ++ (b ++ rest)).data = '"' :: (b ++ rest).data := by
    simp [String.data_append]
  rw [readNameLiteral_plain lead a _ _ hd h]

/-- C5 (amended): the name is put into the query text as it comes, with no escaping and no
rejection. For every name other than `All`, plain or not, `RetrievePodsInteractions` issues its
store call with the text `queryNameLead ++ name ++ queryNameRest`, and
`getPricePerResourceForPod` issues its store call with `queryLead ++ name ++ queryRest`. For a
name holding neither a double quote nor a backslash, the string literal of the
`eq(name, "...")` clause is exactly the name and the text after it is the same fixed text for
every such name. For a name `a"b`, `a` holding neither character, the literal ends after `a`
and the text after it starts with `b`. -/
theorem name_is_interpolated_as_is {F J L : Type} (d : Deps F J L) (name : String)
    (isOrphan : Bool) (hname : name ≠ d.All) :
    (RetrievePodsInteractions d name isOrphan).2.filter Event.isStoreCall =
      [Event.executeQueryRaw (RetrievePodsInteractions.queryNameLead ++ name ++
        RetrievePodsInteractions.queryNameRest)] ∧
    (getPricePerResourceForPod d name).2 =
      [Event.executeQuery (getPricePerResourceForPod.queryLead ++ name ++
        getPricePerResourceForPod.queryRest) "pod"] ∧
    ((∀ c ∈ name.data, c ≠ '"' ∧ c ≠ '\\') →
      readNameLiteral RetrievePodsInteractions.queryNameLead
          (RetrievePodsInteractions.queryNameLead ++ name ++
            RetrievePodsInteractions.queryNameRest) =
        some (name, String.mk RetrievePodsInteractions.queryNameRest.data.tail) ∧
      readNameLiteral getPricePerResourceForPod.queryLead
          (getPricePerResourceForPod.queryLead ++ name ++ getPricePerResourceForPod.queryRest) =
        some (name, String.mk getPricePerResourceForPod.queryRest.data.tail)) ∧
    (∀ a b : String, (∀ c ∈ a.data, c ≠ '"' ∧ c ≠ '\\') → name = a ++ "\"" ++ b →
      readNameLiteral RetrievePodsInteractions.queryNameLead
          (RetrievePodsInteractions.queryNameLead ++ name ++
            RetrievePodsInteractions.queryNameRest) =
        some (a, b ++ RetrievePodsInteractions.queryNameRest) ∧
      readNameLiteral getPricePerResourceForPod.queryLead
          (getPricePerResourceForPod.queryLead ++ name ++ getPricePerResourceForPod.queryRest) =
        some (a, b ++ getPricePerResourceForPod.queryRest)) := by
  refine ⟨?_, ?_, ?_, ?_⟩
  · rw [RetrievePodsInteractions_store_calls, query_of_name isOrphan hname]
  · rw [getPricePerResourceForPod_events]; rfl
  · intro hplain
    exact ⟨readNameLiteral_plain _ _ _ _ (by decide) hplain,
      readNameLiteral_plain _ _ _ _ (by decide) hplain⟩
  · intro a b ha hab
    subst hab
    exact ⟨readNameLiteral_quoted _ a b _ ha, readNameLiteral_quoted _ a b _ ha⟩

/-- C5 (amended), at the name `x"y` with `All` the empty string: the call is issued with the
quote as it came, and the literal of the clause ends after `x`. -/
theorem name_is_interpolated_as_is_witness :
    "x\"y" ≠ exampleDeps.All ∧
    (RetrievePodsInteractions exampleDeps "x\"y" true).2.filter Event.isStoreCall =
      [Event.executeQueryRaw (RetrievePodsInteractions.queryNameLead ++ "x\"y" ++
        RetrievePodsInteractions.queryNameRest)] ∧
    (getPricePerResourceForPod exampleDeps "x\"y").2 =
      [Event.executeQuery (getPricePerResourceForPod.queryLead ++ "x\"y" ++
        getPricePerResourceForPod.queryRest) "pod"] ∧
    readNameLiteral RetrievePodsInteractions.queryNameLead
        (RetrievePodsInteractions.queryNameLead ++ "x\"y" ++
          RetrievePodsInteractions.queryNameRest) =
      some ("x", "y" ++ RetrievePodsInteractions.queryNameRest) :=
  ⟨by decide,
    (name_is_interpolated_as_is exampleDeps "x\"y" true (by decide)).1,
    (name_is_interpolated_as_is exampleDeps "x\"y" true (by decide)).2.1,
    ((name_is_interpolated_as_is exampleDeps "x\"y" true (by decide)).2.2.2 "x" "y"
      (by decide) (by decide)).1⟩

end Query

/-! ## Summary totals of `printPodsVerbose` -/

namespace Kuber

theorem pvcLoop_prints_all (pvcs : Slice (Option String))
    (hpvcs : ∀ x ∈ pvcs.toList, x ≠ none) :
    ∀ (n j : Nat) (out : List String), pvcs.len - j = n → j ≤ pvcs.len →
      printPodsVerbose.pvcLoop pvcs j out =
        (out ++ ((pvcs.toList.drop j).filterMap id).map (fun s => "    " ++ s ++ "\n"),
          Except.ok ()) := by
  intro n
  induction n with
  | zero =>
    intro j out hn hj
    have hjl : pvcs.toList.length ≤ j := by simp only [Slice.len] at hn hj; omega
    rw [printPodsVerbose.pvcLoop, if_neg (by simp only [Slice.len] at hn hj ⊢; omega),
      List.drop_eq_nil_of_le hjl]
    simp
  | succ n ih =>
    intro j out hn hj
    have hjl : j < pvcs.toList.length := by simp only [Slice.len] at hn; omega
    rw [printPodsVerbose.pvcLoop, if_pos (by simp only [Slice.len]; omega)]
    have hget : pvcs.toList[j]? = some (pvcs.toList[j]) := List.getElem?_eq_getElem hjl
    have hmem : pvcs.toList[j] ∈ pvcs.toList := List.getElem_mem hjl
    cases hx : pvcs.toList[j] with
    | none => exact absurd hx (hpvcs _ hmem)
    | some s =>
      rw [hget, hx]
      simp only
      rw [ih (j + 1) _ (by omega) (by simp only [Slice.len]; omega),
        List.drop_eq_getElem_cons hjl, hx]
      simp

theorem podsLoop_accumulates {F : Type} (fl : Float64 F) (pods : Slice (Option (Pod F)))
    (ps : List (Pod F)) (hpods : pods.toList = ps.map some)
    (hpvcs : ∀ p ∈ ps, ∀ x ∈ p.pvcs.toList, x ≠ none) :
    ∀ (n i : Nat) (out : List String) (t : Totals F), pods.len - i = n → i ≤ pods.len →
      printPodsVerbose.podsLoop fl pods i out t =
        (out ++ podsLines fl (ps.drop i), Except.ok ((ps.drop i).foldl (Totals.addPod fl) t)) := by
  have hlen : pods.len = ps.length := by simp [Slice.len, hpods]
  intro n
  induction n with
  | zero =>
    intro i out t hn hi
    rw [printPodsVerbose.podsLoop, if_neg (by omega),
      List.drop_eq_nil_of_le (by omega)]
    simp [podsLines]
  | succ n ih =>
    intro i out t hn hi
    have hil : i < ps.length := by omega
    rw [printPodsVerbose.podsLoop, if_pos (by omega)]
    have hget : pods.toList[i]? = some (some ps[i]) := by
      rw [hpods]; simp [List.getElem?_eq_getElem hil]
    have hmem : ps[i] ∈ ps := List.getElem_mem hil
    rw [hget]
    simp only
    rw [pvcLoop_prints_all ps[i].pvcs (hpvcs _ hmem) _ 0 _ rfl (Nat.zero_le _)]
    simp only
    rw [ih (i + 1) _ _ (by omega) (by omega), List.drop_eq_getElem_cons hil]
    simp only [podsLines, podLines, List.foldl_cons, List.append_assoc, List.drop_zero]
    rfl

theorem foldl_addPod_fields {F : Type} (fl : Float64 F) (ps : List (Pod F)) :
    ∀ t : Totals F,
      ps.foldl (Totals.addPod fl) t =
        { totalCost := (ps.map (fun p => p.cost.totalCost)).foldl fl.add t.totalCost
          totalCPUCost := (ps.map (fun p => p.cost.cpuCost)).foldl fl.add t.totalCPUCost
          totalMemoryCost := (ps.map (fun p => p.cost.memoryCost)).foldl fl.add t.totalMemoryCost
          totalStorageCost :=
            (ps.map (fun p => p.cost.storageCost)).foldl fl.add t.totalStorageCost } := by
  induction ps with
  | nil => intro t; rfl
  | cons p ps ih => intro t; simp [List.foldl_cons, ih, Totals.addPod]

/-- C10: for every list of pods (the slice holds no nil pointer, no pod a nil volume claim),
`printPodsVerbose` runs to its end, every `pods[i]` and `pvcs[j]` within bounds, and its four
accumulators end as the field-wise sums of the pods' cost fields, each from `0.0` and added in
list order: total from `cost.totalCost`, CPU from `cost.cpuCost`, memory from `cost.memoryCost`,
storage from `cost.storageCost`; these are the four values of the printed summary. For the nil
and the empty slice all four are `0.0`. -/
theorem printPodsVerbose_totals_are_fieldwise_sums {F : Type} (fl : Float64 F)
    (pods : Slice (Option (Pod F))) (ps : List (Pod F)) (hpods : pods.toList = ps.map some)
    (hpvcs : ∀ p ∈ ps, ∀ x ∈ p.pvcs.toList, x ≠ none) :
    (printPodsVerbose fl pods).2 = Except.ok
      { totalCost := sumField fl (fun c => c.totalCost) ps
        totalCPUCost := sumField fl (fun c => c.cpuCost) ps
        totalMemoryCost := sumField fl (fun c => c.memoryCost) ps
        totalStorageCost := sumField fl (fun c => c.storageCost) ps } ∧
    (printPodsVerbose fl pods).1 =
      ["==Pods Cost Details==\n"] ++ podsLines fl ps ++
        [padRight 30 "Total Cost Summary:" ++ "\n"] ++
        summaryLines fl
          { totalCost := sumField fl (fun c => c.totalCost) ps
            totalCPUCost := sumField fl (fun c => c.cpuCost) ps
            totalMemoryCost := sumField fl (fun c => c.memoryCost) ps
            totalStorageCost := sumField fl (fun c => c.storageCost) ps } ∧
    (printPodsVerbose fl (none : Slice (Option (Pod F)))).2 = Except.ok
      { totalCost := fl.zero, totalCPUCost := fl.zero, totalMemoryCost := fl.zero,
        totalStorageCost := fl.zero } ∧
    (printPodsVerbose fl (some [] : Slice (Option (Pod F)))).2 = Except.ok
      { totalCost := fl.zero, totalCPUCost := fl.zero, totalMemoryCost := fl.zero,
        totalStorageCost := fl.zero } := by
  have run : ∀ (q : Slice (Option (Pod F))) (l : List (Pod F)), q.toList = l.map some →
      (∀ p ∈ l, ∀ x ∈ p.pvcs.toList, x ≠ none) →
      printPodsVerbose fl q =
        (["==Pods Cost Details==\n"] ++ podsLines fl l ++
          [padRight 30 "Total Cost Summary:" ++ "\n"] ++
          summaryLines fl
            { totalCost := sumField fl (fun c => c.totalCost) l
              totalCPUCost := sumField fl (fun c => c.cpuCost) l
              totalMemoryCost := sumField fl (fun c => c.memoryCost) l
              totalStorageCost := sumField fl (fun c => c.storageCost) l },
          Except.ok
            { totalCost := sumField fl (fun c => c.totalCost) l
              totalCPUCost := sumField fl (fun c => c.cpuCost) l
              totalMemoryCost := sumField fl (fun c => c.memoryCost) l
              totalStorageCost := sumField fl (fun c => c.storageCost) l }) := by
    intro q l hq hl
    unfold printPodsVerbose
    rw [podsLoop_accumulates fl q l hq hl _ 0 _ _ rfl (Nat.zero_le _), List.drop_zero,
      foldl_addPod_fields]
    rfl
  refine ⟨?_, ?_, ?_, ?_⟩
  · rw [run pods ps hpods hpvcs]
  · rw [run pods ps hpods hpvcs]
  · rw [run none [] rfl (by simp)]; rfl
  · rw [run (some []) [] rfl (by simp)]; rfl

/-- C10, at two pods with costs `(6, 3, 2, 1)` and `(60, 30, 20, 10)`. -/
theorem printPodsVerbose_totals_are_fieldwise_sums_witness :
    examplePodSlice.toList = examplePods.map some ∧
    (∀ p ∈ examplePods, ∀ x ∈ p.pvcs.toList, x ≠ none) ∧
    (printPodsVerbose exampleFloat64 examplePodSlice).2 = Except.ok
      { totalCost := 66, totalCPUCost := 33, totalMemoryCost := 22, totalStorageCost := 11 } :=
  ⟨rfl, by decide,
    (printPodsVerbose_totals_are_fieldwise_sums exampleFloat64 examplePodSlice
      examplePods rfl (by decide)).1⟩

end Kuber

end Purser
